import Mathlib

/-!
Verification of the rtbench interrupt-latency measurement program
(`src/stat/main.c`) against its natural-language specification.

The C program arms a hardware interrupt generator, waits for interrupts,
reads two 32-bit hardware tick counters (REG_START, REG_NOW), converts the
elapsed tick count to microseconds and accumulates a fixed-resolution
latency histogram, counting out-of-range samples as missed.

The shallow embedding below models the measurement task `rtask_main`
(main.c lines 256-400) as a pure function over an environment that supplies
the results of every external call (session opens, register reads, interrupt
waits), and models the reporting half of `main` (lines 405-444) over the
final task state.  Machine integers are `Nat` with explicit `% 2^32`
reductions exactly where the C narrows to `uint32_t`.
-/

/-- Histogram parameters, from main.c lines 209-211:
`LAT_MAX_US = 1000000`, `LAT_RES_US = 1`, `LAT_MAX_COUNT = LAT_MAX_US / LAT_RES_US`. -/
def LAT_MAX_US : Nat := 1000000

/-- Histogram resolution in microseconds (main.c line 210). -/
def LAT_RES_US : Nat := 1

/-- Number of histogram buckets (main.c line 211). -/
def LAT_MAX_COUNT : Nat := LAT_MAX_US / LAT_RES_US

/-- The value `(uint32_t)-1` used by the wraparound branch (main.c line 365). -/
def UINT32_MAX : Nat := 2 ^ 32 - 1

/-- The device identity constant checked at main.c line 308. -/
def MAGIC_VALUE : Nat := 0xbadcafee

/-- Register offsets, from main.c lines 145-151. -/
def REG_CTL : Nat := 0x00

/-- Offset of the read-only magic register (main.c line 147). -/
def REG_MAGIC : Nat := 0x0c

/-- Offset of the internal clock frequency register (main.c line 148). -/
def REG_FCLK : Nat := 0x10

/-- Offset of the IRQ start-time register (main.c line 149). -/
def REG_START : Nat := 0x14

/-- Offset of the current-time register (main.c line 150). -/
def REG_NOW : Nat := 0x18

/-- Elapsed tick count between the two counter readings, from main.c
lines 365-366: `if (xx < x) xxx = ((uint32_t)-1) - x + xx; else xxx = xx - x;`
(`x` is REG_START, `xx` is REG_NOW; for `x`, `xx` below `2^32` none of the
`uint32_t` operations here wraps, so plain `Nat` arithmetic is exact). -/
def elapsedTicks (start now : Nat) : Nat :=
  if now < start then UINT32_MAX - start + now else now - start

/-- Conversion from clock ticks to microseconds, from main.c line 370:
`xxx = (uint32_t)(((uint64_t)xxx * (uint64_t)1000000) / (uint64_t)irq_fclk);`.
For `elapsed < 2^32` the 64-bit product `elapsed * 1000000 < 2^52` is exact,
as is the 64-bit quotient; the final cast to `uint32_t` is the `% 2^32`. -/
def latMicros (fclk elapsed : Nat) : Nat :=
  (elapsed * 1000000 / fclk) % 2 ^ 32

/-- Mutable state of the measurement task that survives the loop: the
histogram array `lat_hist`, the missed counter `irq_missed` (main.c
lines 212-218), plus `observed`, the specification's `observedCount`:
the number of recording calls performed so far.  The C code keeps no such
counter; it is carried here as a ghost field (incremented exactly once per
recording call) because the claims quantify over it. -/
structure HState where
  lat_hist : Nat → Nat
  irq_missed : Nat
  observed : Nat

/-- The all-zero state produced by `main` before the task starts
(main.c lines 418-422 zero the histogram; the loop zeroes `irq_missed`). -/
def initHState : HState := ⟨fun _ => 0, 0, 0⟩

/-- One latency-recording step, from main.c lines 363-375: compute the
wraparound-safe elapsed ticks, convert to microseconds, then
`if (xxx < LAT_MAX_COUNT) ++arg->lat_hist[xxx]; else ++arg->irq_missed;`.
The ghost field `observed` counts the calls. -/
def recordTicks (s : HState) (fclk start now : Nat) : HState :=
  let xxx := latMicros fclk (elapsedTicks start now)
  if xxx < LAT_MAX_COUNT then
    { s with lat_hist := Function.update s.lat_hist xxx (s.lat_hist xxx + 1),
             observed := s.observed + 1 }
  else
    { s with irq_missed := s.irq_missed + 1,
             observed := s.observed + 1 }

/-- Externally visible actions of the measurement task: session lifecycle
events and device register accesses through the `epci` handle
(offsets relative to REG_BASE), plus the interrupt waits. -/
inductive DevAction where
  | uirqOpen : DevAction
  | uirqClose : DevAction
  | epciOpen : DevAction
  | epciClose : DevAction
  | uirqWait : DevAction
  | regRead : Nat → DevAction
  | regWrite : Nat → Nat → DevAction
deriving DecidableEq

/-- Result of one `uirq_wait` call together with the device counter values
the iteration would read and the value of the `is_sigint` flag at the
bottom-of-loop check (main.c line 385). -/
structure Event where
  waitErr : Bool
  mask : Nat
  start : Nat
  now : Nat
  sigint : Bool

/-- How the measurement loop ended: a normal `break` (`ok`), a hard
`uirq_wait` failure (`waitError`), or the modelled event stream ran out
while the C loop would still be running (`fuelOut`). -/
inductive LoopExit where
  | ok : LoopExit
  | waitError : LoopExit
  | fuelOut : LoopExit
deriving DecidableEq

/-- Outcome of the measurement loop: final histogram state, the final value
of `arg->irq_count`, the number of `uirq_wait` calls performed, the emitted
actions, and how the loop ended. -/
structure LoopResult where
  st : HState
  irq : Nat
  waits : Nat
  acts : List DevAction
  exit : LoopExit

/-- The measurement loop, from main.c lines 346-387:
`for (arg->irq_count = 0; 1; ++arg->irq_count)` waits for an interrupt
(error aborts to cleanup), skips the histogram update when `mask == 0`,
otherwise reads REG_START then REG_NOW and records the sample; then breaks
if `is_sigint` is set, or if `cmd->irq_count > 0` and the loop counter has
reached it; otherwise the counter is incremented and the loop repeats.
`n` is the current value of `arg->irq_count`. -/
def runLoop (cmdCount fclk : Nat) : List Event → Nat → HState → LoopResult
  | [], n, s => ⟨s, n, 0, [], LoopExit.fuelOut⟩
  | e :: rest, n, s =>
    if e.waitErr then ⟨s, n, 1, [DevAction.uirqWait], LoopExit.waitError⟩
    else
      let s2 := if e.mask = 0 then s else recordTicks s fclk e.start e.now
      let a2 := if e.mask = 0 then [DevAction.uirqWait]
                else [DevAction.uirqWait, DevAction.regRead REG_START, DevAction.regRead REG_NOW]
      if e.sigint then ⟨s2, n, 1, a2, LoopExit.ok⟩
      else if 0 < cmdCount ∧ n = cmdCount then ⟨s2, n, 1, a2, LoopExit.ok⟩
      else
        let r := runLoop cmdCount fclk rest (n + 1) s2
        ⟨r.st, r.irq, r.waits + 1, a2 ++ r.acts, r.exit⟩

/-- Command line configuration (main.c lines 51-55): the requested IRQ
generation frequency and the number of IRQs to handle (0 = unbounded). -/
structure Cmd where
  irq_fgen : Nat
  irq_count : Nat

/-- Environment supplying the results of every external call made by
`rtask_main`: success of the four setup calls, the MAGIC and FCLK register
values, and the stream of wait results for the loop. -/
structure Env where
  enableOk : Bool
  initOk : Bool
  openOk : Bool
  setMaskOk : Bool
  epciOk : Bool
  magic : Nat
  fclk : Nat
  events : List Event

/-- The CTL value written when arming, from main.c lines 336-344:
`x = irq_fclk / cmd->irq_fgen; if (x == 0) goto on_error_3;`
then `reg_write_ctl(epci, (1 << 31) | x);`.  `none` is the
divider-underflow failure. -/
def armCtlWrite (fclk fgen : Nat) : Option Nat :=
  let x := fclk / fgen
  if x = 0 then none else some (2 ^ 31 ||| x)

/-- Result of a modelled `rtask_main` run: whether it returned `-1`
(`err = true`), whether the model observed the task to termination
(`complete = false` means the event stream ran out while the C loop would
still be waiting), the emitted actions, the final histogram state and the
final `arg->irq_count`. -/
structure RtaskResult where
  err : Bool
  complete : Bool
  actions : List DevAction
  st : HState
  irq : Nat

/-- The measurement task `rtask_main`, from main.c lines 256-400.
Setup failures return `-1` from the labelled cleanup chain: a failed
`enable_ebone_slave_interrupt`, `uirq_init_lib` or `uirq_open` releases
nothing; a failed `uirq_set_mask` or `epci_open` closes the uirq session; a
MAGIC mismatch or a zero frequency divider disarms (CTL := 0) and closes
both sessions; otherwise CTL is armed and the loop runs, after which every
exit path (normal break, cancellation, hard wait error) falls into
`on_error_3`: disarm, close epci, close uirq.
`enable_ebone_slave_interrupt` opens, programs and closes a separate BAR0
control session before any of this; it is modelled only by its success flag
since it touches none of the REG_BASE registers.  `s0` is the state handed
in by `main` (note: `main` does not initialize `irq_missed`; the loop does,
at main.c line 346).  First, the actions emitted up to and including the
arming CTL write. -/
def armedActs (ctl : Nat) : List DevAction :=
  [DevAction.uirqOpen, DevAction.epciOpen, DevAction.regRead REG_MAGIC,
   DevAction.regRead REG_FCLK, DevAction.regWrite REG_CTL ctl]

/-- The armed phase of the task: zero `irq_missed` (main.c line 346), run
the measurement loop, and — whenever the loop actually exits (any reason:
normal break, cancellation, hard wait error) — fall into `on_error_3`
(main.c lines 391-395): disarm with CTL = 0, close the register session,
close the interrupt session.  If the modelled event stream runs out first
(`fuelOut`), the C loop is still waiting, so no cleanup is emitted and the
run is marked incomplete. -/
def loopPhase (cmdCount fclk : Nat) (events : List Event) (ctl : Nat)
    (s0 : HState) : RtaskResult :=
  let r := runLoop cmdCount fclk events 0 { s0 with irq_missed := 0 }
  if r.exit = LoopExit.fuelOut then
    ⟨false, false, armedActs ctl ++ r.acts, r.st, r.irq⟩
  else
    ⟨decide (r.exit = LoopExit.waitError), true,
     armedActs ctl ++ r.acts ++
       [DevAction.regWrite REG_CTL 0, DevAction.epciClose, DevAction.uirqClose],
     r.st, r.irq⟩

/-- Dispatch of `rtask_main` (main.c lines 256-400) over the environment:
the chain of fallible setup calls with their cleanup labels, the MAGIC
check, the divider check `irq_fclk / irq_fgen == 0` (main.c lines 337-342),
then the arming write `(1 << 31) | divider` (line 344) and the loop
phase. -/
def rtask_main (cmd : Cmd) (env : Env) (s0 : HState) : RtaskResult :=
  if env.enableOk = false then ⟨true, true, [], s0, 0⟩
  else if env.initOk = false then ⟨true, true, [], s0, 0⟩
  else if env.openOk = false then ⟨true, true, [], s0, 0⟩
  else if env.setMaskOk = false then
    ⟨true, true, [DevAction.uirqOpen, DevAction.uirqClose], s0, 0⟩
  else if env.epciOk = false then
    ⟨true, true, [DevAction.uirqOpen, DevAction.uirqClose], s0, 0⟩
  else if env.magic ≠ MAGIC_VALUE then
    ⟨true, true,
     [DevAction.uirqOpen, DevAction.epciOpen, DevAction.regRead REG_MAGIC,
      DevAction.regWrite REG_CTL 0, DevAction.epciClose, DevAction.uirqClose], s0, 0⟩
  else if env.fclk / cmd.irq_fgen = 0 then
    ⟨true, true,
     [DevAction.uirqOpen, DevAction.epciOpen, DevAction.regRead REG_MAGIC,
      DevAction.regRead REG_FCLK, DevAction.regWrite REG_CTL 0,
      DevAction.epciClose, DevAction.uirqClose], s0, 0⟩
  else
    loopPhase cmd.irq_count env.fclk env.events
      (2 ^ 31 ||| (env.fclk / cmd.irq_fgen)) s0

/-- Sum of all histogram buckets. -/
def histSum (f : Nat → Nat) : Nat := ∑ i in Finset.range LAT_MAX_COUNT, f i

/-- The nonzero-bucket rows of the final report, from main.c lines 434-438:
`for (i = 0; i != LAT_MAX_COUNT; ++i) { if (lat_hist[i] == 0) continue;
printf("%zu %u\n", i * LAT_RES_US, lat_hist[i]); }`. -/
def bucketRows (hist : Nat → Nat) : List (Nat × Nat) :=
  ((List.range LAT_MAX_COUNT).filter (fun i => hist i != 0)).map
    (fun i => (i * LAT_RES_US, hist i))

/-- The lines printed by `main` after joining the task, from main.c
lines 431-438: the two summary lines then one line per nonzero bucket. -/
def mainLines (irqCount missed : Nat) (hist : Nat → Nat) : List String :=
  ("# irq_count : " ++ toString irqCount) ::
  ("# irq_missed: " ++ toString missed) ::
  (bucketRows hist).map (fun p => toString p.1 ++ " " ++ toString p.2)

/-- Exit code and printed lines of the whole process. -/
structure MainResult where
  exitErr : Bool
  lines : List String

/-- The reporting half of `main`, from main.c lines 413-443: the histogram
is zero-initialized and `irq_count` starts at 0; `irq_missed` is NOT
initialized by `main` (it is the parameter `uninitMissed`); the check of
the task's return value before printing is commented out (line 428), so the
report is printed whether the task succeeded or failed, and the process
returns the task's error code. -/
def main_report (cmd : Cmd) (env : Env) (uninitMissed : Nat) : MainResult :=
  let r := rtask_main cmd env ⟨fun _ => 0, uninitMissed, 0⟩
  ⟨r.err, mainLines r.irq r.st.irq_missed r.st.lat_hist⟩

/-- Helper: the per-call conservation of `recordTicks`: each call adds
exactly 1 to `sum(buckets) + missedCount` and exactly 1 to `observed`. -/
theorem recordTicks_sum (s : HState) (f a b : Nat) :
    histSum (recordTicks s f a b).lat_hist + (recordTicks s f a b).irq_missed
      = histSum s.lat_hist + s.irq_missed + 1 ∧
    (recordTicks s f a b).observed = s.observed + 1 := by
  unfold recordTicks
  by_cases h : latMicros f (elapsedTicks a b) < LAT_MAX_COUNT
  · refine ⟨?_, by simp [h]⟩
    simp only [h, if_true, if_pos]
    unfold histSum
    rw [Finset.sum_update_of_mem (Finset.mem_range.mpr h)]
    have h2 := Finset.sum_erase_add (Finset.range LAT_MAX_COUNT) s.lat_hist
      (Finset.mem_range.mpr h)
    rw [Finset.erase_eq] at h2
    omega
  · constructor
    · simp only [h, if_neg, if_false]
      omega
    · simp [h]

/-- C3: for readings with `nowTicks < startTicks` (wrapped counter) and both
below `2^32`, the wraparound branch `(UINT32_MAX - startTicks) + nowTicks`
equals the modular difference `(nowTicks - startTicks) mod 2^32` minus one
tick. -/
theorem wraparound_elapsed (x xx : Nat) (h1 : xx < x) (h2 : x < 2 ^ 32) :
    elapsedTicks x xx = (xx + 2 ^ 32 - x) % 2 ^ 32 - 1 := by
  unfold elapsedTicks UINT32_MAX
  rw [if_pos h1, Nat.mod_eq_of_lt (by omega)]
  omega

/-- Witness for `wraparound_elapsed` at `startTicks = 10`, `nowTicks = 3`. -/
theorem wraparound_elapsed_witness :
    3 < 10 ∧ 10 < 2 ^ 32 ∧ elapsedTicks 10 3 = (3 + 2 ^ 32 - 10) % 2 ^ 32 - 1 :=
  ⟨by decide, by decide, wraparound_elapsed 10 3 (by decide) (by decide)⟩

/-- C2 (corrected): the latency-recording step computes
`micros = ((elapsed * 1_000_000) / clockHz) mod 2^32` — the 64-bit
intermediate product is exact, but the quotient is truncated back to 32 bits
by the cast at main.c line 370 — then increments `buckets[micros]` iff
`micros < 1_000_000` and `missedCount` otherwise; `observedCount` (the call
counter) always increases by exactly 1, and exactly one of the two other
counters changes, by exactly 1, per call. -/
theorem recordTicks_characterization (s : HState) (fclk start now : Nat)
    (hf : 0 < fclk) :
    (recordTicks s fclk start now).observed = s.observed + 1 ∧
    (recordTicks s fclk start now).irq_missed
      = s.irq_missed +
        (if elapsedTicks start now * 1000000 / fclk % 2 ^ 32 < LAT_MAX_US then 0 else 1) ∧
    ∀ k, (recordTicks s fclk start now).lat_hist k
      = s.lat_hist k +
        (if elapsedTicks start now * 1000000 / fclk % 2 ^ 32 < LAT_MAX_US ∧
            k = elapsedTicks start now * 1000000 / fclk % 2 ^ 32 then 1 else 0) := by
  have hmax : LAT_MAX_COUNT = LAT_MAX_US := rfl
  simp only [recordTicks, latMicros, hmax]
  set m := elapsedTicks start now * 1000000 / fclk % 2 ^ 32 with hm
  by_cases h : m < LAT_MAX_US
  · refine ⟨by rw [if_pos h], by rw [if_pos h]; simp [h], fun k => ?_⟩
    rw [if_pos h]
    by_cases hk : k = m
    · subst hk; simp [h, Function.update_apply]
    · simp [h, hk, Function.update_apply]
  · refine ⟨by rw [if_neg h], by rw [if_neg h]; simp [h], fun k => ?_⟩
    rw [if_neg h]
    simp [h]

/-- Witness for `recordTicks_characterization` at
`(startTicks, nowTicks, clockHz) = (0, 500, 1000000)`, projected at
bucket `k = 500`. -/
theorem recordTicks_characterization_witness :
    0 < 1000000 ∧
    (recordTicks initHState 1000000 0 500).observed = initHState.observed + 1 ∧
    (recordTicks initHState 1000000 0 500).irq_missed
      = initHState.irq_missed +
        (if elapsedTicks 0 500 * 1000000 / 1000000 % 2 ^ 32 < LAT_MAX_US then 0 else 1) ∧
    (recordTicks initHState 1000000 0 500).lat_hist 500
      = initHState.lat_hist 500 +
        (if elapsedTicks 0 500 * 1000000 / 1000000 % 2 ^ 32 < LAT_MAX_US ∧
            500 = elapsedTicks 0 500 * 1000000 / 1000000 % 2 ^ 32 then 1 else 0) :=
  ⟨by decide,
   (recordTicks_characterization initHState 1000000 0 500 (by decide)).1,
   (recordTicks_characterization initHState 1000000 0 500 (by decide)).2.1,
   (recordTicks_characterization initHState 1000000 0 500 (by decide)).2.2 500⟩

/-- C2 counterexample: at `(startTicks, nowTicks, clockHz) = (0, 4295, 1)`
the exact quotient `elapsed * 1_000_000 / clockHz = 4_295_000_000` is at
least `1_000_000`, so the claim says `missedCount` is incremented; the code
instead truncates the quotient to 32 bits (`4_295_000_000 mod 2^32 = 32704`)
and increments `buckets[32704]`, leaving `missedCount` untouched. -/
theorem recordTicks_truncation_counterexample :
    LAT_MAX_US ≤ elapsedTicks 0 4295 * 1000000 / 1 ∧
    (recordTicks initHState 1 0 4295).irq_missed = 0 ∧
    (recordTicks initHState 1 0 4295).lat_hist 32704 = 1 := by
  refine ⟨by decide, by decide, by decide⟩

/-- C1 counterexample: in the claimed scenario (`sampleCount = 5`, every
wait signals `mask = 1`, `elapsed = 500_000` ticks at
`clockHz = 1_000_000`) the loop does exit with `irqCount = 5` and
`missedCount = 0`, but the bucket at microsecond offset 500 is 0, not 5:
500_000 ticks at 1 MHz convert to 500_000 microseconds, and the loop
records 6 samples (the bottom-of-loop test lets iteration `irq_count = 5`
run before breaking), so bucket 500_000 holds 6. -/
theorem scenario_count5_counterexample :
    (runLoop 5 1000000 (List.replicate 8 ⟨false, 1, 0, 500000, false⟩) 0 initHState).irq = 5 ∧
    (runLoop 5 1000000 (List.replicate 8 ⟨false, 1, 0, 500000, false⟩) 0 initHState).st.irq_missed = 0 ∧
    (runLoop 5 1000000 (List.replicate 8 ⟨false, 1, 0, 500000, false⟩) 0 initHState).st.lat_hist 500 = 0 ∧
    ¬(runLoop 5 1000000 (List.replicate 8 ⟨false, 1, 0, 500000, false⟩) 0 initHState).st.lat_hist 500 = 5 := by
  refine ⟨by decide, by decide, by decide, by decide⟩

/-- C1 (corrected): with `sampleCount = 5` and every wait returning a
nonzero mask with `elapsed = 500_000` ticks at `clockHz = 1_000_000`, each
sample maps to 500_000 microseconds; the loop exits normally with
`irqCount = 5` and `missedCount = 0`, having recorded `sampleCount + 1 = 6`
samples, so the bucket at offset 500_000 equals 6. -/
theorem scenario_count5_amended :
    (runLoop 5 1000000 (List.replicate 8 ⟨false, 1, 0, 500000, false⟩) 0 initHState).exit = LoopExit.ok ∧
    (runLoop 5 1000000 (List.replicate 8 ⟨false, 1, 0, 500000, false⟩) 0 initHState).irq = 5 ∧
    (runLoop 5 1000000 (List.replicate 8 ⟨false, 1, 0, 500000, false⟩) 0 initHState).st.lat_hist 500000 = 6 ∧
    (runLoop 5 1000000 (List.replicate 8 ⟨false, 1, 0, 500000, false⟩) 0 initHState).st.irq_missed = 0 ∧
    (runLoop 5 1000000 (List.replicate 8 ⟨false, 1, 0, 500000, false⟩) 0 initHState).st.observed = 6 := by
  refine ⟨by decide, by decide, by decide, by decide, by decide⟩

/-- C7 counterexample: a run whose two wakeups both return `mask = 0` (the
second with the cancellation flag set) reads no latency sample at all
(`observed = 0`), yet ends with `irqCount = 1`: the loop counter
`arg->irq_count` is incremented at the end of every non-breaking iteration
regardless of the mask, so it is not incremented only in iterations that
read a sample. -/
theorem empty_mask_irq_count_counterexample :
    (runLoop 0 1000000 [⟨false, 0, 0, 0, false⟩, ⟨false, 0, 0, 0, true⟩] 0 initHState).irq = 1 ∧
    (runLoop 0 1000000 [⟨false, 0, 0, 0, false⟩, ⟨false, 0, 0, 0, true⟩] 0 initHState).st.observed = 0 ∧
    (runLoop 0 1000000 [⟨false, 0, 0, 0, false⟩, ⟨false, 0, 0, 0, true⟩] 0 initHState).exit = LoopExit.ok := by
  refine ⟨by decide, by decide, by decide⟩

/-- C7 (corrected): an iteration whose wait returns `mask = 0` leaves the
histogram buckets, `missedCount` and `observedCount` unchanged (the whole
histogram state is passed through untouched), and — unless it breaks — the
loop continues with the running `irq_count` incremented by 1: the counter
advances on every continuing iteration, with or without a sample. -/
theorem empty_mask_iteration (c f : Nat) (e : Event) (rest : List Event)
    (n : Nat) (s : HState)
    (h1 : e.waitErr = false) (h2 : e.mask = 0) (h3 : e.sigint = false)
    (h4 : ¬(0 < c ∧ n = c)) :
    (runLoop c f (e :: rest) n s).st = (runLoop c f rest (n + 1) s).st ∧
    (runLoop c f (e :: rest) n s).irq = (runLoop c f rest (n + 1) s).irq ∧
    (runLoop c f (e :: rest) n s).exit = (runLoop c f rest (n + 1) s).exit ∧
    (runLoop c f (e :: rest) n s).waits = (runLoop c f rest (n + 1) s).waits + 1 := by
  simp [runLoop, h1, h2, h3, h4]

/-- Witness for `empty_mask_iteration`: a single `mask = 0` wakeup with the
loop bound disabled (`cmdCount = 0`). -/
theorem empty_mask_iteration_witness :
    ((⟨false, 0, 0, 0, false⟩ : Event).waitErr = false ∧
     (⟨false, 0, 0, 0, false⟩ : Event).mask = 0 ∧
     (⟨false, 0, 0, 0, false⟩ : Event).sigint = false ∧
     ¬(0 < 0 ∧ 0 = 0)) ∧
    ((runLoop 0 1000000 [⟨false, 0, 0, 0, false⟩] 0 initHState).st
        = (runLoop 0 1000000 [] 1 initHState).st ∧
     (runLoop 0 1000000 [⟨false, 0, 0, 0, false⟩] 0 initHState).irq
        = (runLoop 0 1000000 [] 1 initHState).irq ∧
     (runLoop 0 1000000 [⟨false, 0, 0, 0, false⟩] 0 initHState).exit
        = (runLoop 0 1000000 [] 1 initHState).exit ∧
     (runLoop 0 1000000 [⟨false, 0, 0, 0, false⟩] 0 initHState).waits
        = (runLoop 0 1000000 [] 1 initHState).waits + 1) :=
  ⟨⟨by decide, by decide, by decide, by decide⟩,
   empty_mask_iteration 0 1000000 ⟨false, 0, 0, 0, false⟩ [] 0 initHState
     (by decide) (by decide) (by decide) (by decide)⟩

/-- C9: once the cancellation flag is set (every remaining wakeup observes
`sigint = true` at the bottom-of-loop check), the loop performs at most one
more `uirq_wait` call — each bounded by the 1000 ms timeout passed at
main.c line 349 — and its entire outcome is determined by that first
wakeup alone: no later event is waited on, read, or recorded. -/
theorem cancellation_within_one_wait (c f : Nat) (evs : List Event)
    (n : Nat) (s : HState) (h : ∀ e ∈ evs, e.sigint = true) :
    (runLoop c f evs n s).waits ≤ 1 ∧
    runLoop c f evs n s = runLoop c f (evs.take 1) n s := by
  cases evs with
  | nil => exact ⟨by simp [runLoop], rfl⟩
  | cons e rest =>
    have he : e.sigint = true := h e (List.mem_cons_self e rest)
    by_cases hw : e.waitErr = true
    · exact ⟨by simp [runLoop, hw], by simp [runLoop, hw]⟩
    · simp only [Bool.not_eq_true] at hw
      exact ⟨by simp [runLoop, hw, he], by simp [runLoop, hw, he]⟩

/-- Witness for `cancellation_within_one_wait`: one wakeup with the flag
already set. -/
theorem cancellation_within_one_wait_witness :
    (runLoop 0 1000000 [⟨false, 1, 0, 700, true⟩] 0 initHState).waits ≤ 1 ∧
    runLoop 0 1000000 [⟨false, 1, 0, 700, true⟩] 0 initHState
      = runLoop 0 1000000 ([⟨false, 1, 0, 700, true⟩].take 1) 0 initHState :=
  cancellation_within_one_wait 0 1000000 [⟨false, 1, 0, 700, true⟩] 0 initHState
    (by decide)

/-- C4: histogram conservation. Over any segment of the measurement loop,
`sum(buckets) + missedCount` grows by exactly as much as `observedCount`
(the number of `recordTicks` calls, i.e. of wakeups whose wait succeeded
with a nonzero mask): wakeups with `mask = 0` and failed waits increment
none of the three counters.  Starting from the zeroed state this is
`sum(buckets) + missedCount = observedCount = N` at every point of the
run. -/
theorem histogram_conservation (c f : Nat) (evs : List Event) (n : Nat) (s : HState) :
    histSum (runLoop c f evs n s).st.lat_hist + (runLoop c f evs n s).st.irq_missed
        + s.observed
      = histSum s.lat_hist + s.irq_missed + (runLoop c f evs n s).st.observed := by
  induction evs generalizing n s with
  | nil => simp [runLoop]
  | cons e rest ih =>
    by_cases hw : e.waitErr = true
    · simp [runLoop, hw]
    · simp only [Bool.not_eq_true] at hw
      by_cases hm : e.mask = 0
      · by_cases hs : e.sigint = true
        · simp [runLoop, hw, hm, hs]
        · simp only [Bool.not_eq_true] at hs
          by_cases hc : 0 < c ∧ n = c
          · simp [runLoop, hw, hm, hs, hc]
          · simpa [runLoop, hw, hm, hs, hc] using ih (n + 1) s
      · have hrec := recordTicks_sum s f e.start e.now
        by_cases hs : e.sigint = true
        · simp [runLoop, hw, hm, hs]
          omega
        · simp only [Bool.not_eq_true] at hs
          by_cases hc : 0 < c ∧ n = c
          · simp [runLoop, hw, hm, hs, hc]
            omega
          · have := ih (n + 1) (recordTicks s f e.start e.now)
            simp [runLoop, hw, hm, hs, hc]
            omega

/-- Helper: the armed CTL value always has the start bit (bit 31) set. -/
theorem armCtl_testBit31 (x : Nat) : (2 ^ 31 ||| x).testBit 31 = true := by
  rw [Nat.testBit_lor, Nat.testBit_two_pow_self, Bool.true_or]

/-- Helper: the low 24 bits of the armed CTL value are the low 24 bits of
the divider (the start bit lives at bit 31 and cannot reach them). -/
theorem armCtl_low24 (x : Nat) : (2 ^ 31 ||| x) % 2 ^ 24 = x % 2 ^ 24 := by
  apply Nat.eq_of_testBit_eq
  intro i
  rw [Nat.testBit_mod_two_pow, Nat.testBit_mod_two_pow, Nat.testBit_lor]
  by_cases hi : i < 24
  · have h31 : (2 ^ 31).testBit i = false := Nat.testBit_two_pow_of_ne (by omega)
    rw [h31, Bool.false_or]
  · have hd : decide (i < 24) = false := by simp [hi]
    rw [hd, Bool.false_and, Bool.false_and]

/-- C6 (corrected): for every FCLK and requested frequency (nonzero, as the
C division requires), arming fails iff the integer quotient
`FCLK / frequencyHz` is 0; on success the written CTL value is
`2^31 ||| quotient` — bit 31 (start) set and the quotient's low 24 bits in
bits 23..0, which equal the quotient itself only when it is below `2^24`
(the code does not mask the quotient, so larger quotients spill past the
24-bit divider field); on the failure branch the whole task fails and the
only CTL write it performs is the cleanup stop-write CTL = 0 (bit 31
clear). -/
theorem arm_divider_behavior (fclk fgen : Nat) (hf : 0 < fgen) :
    (armCtlWrite fclk fgen = none ↔ fclk / fgen = 0) ∧
    (∀ v, armCtlWrite fclk fgen = some v →
      v.testBit 31 = true ∧ v % 2 ^ 24 = fclk / fgen % 2 ^ 24 ∧
      (fclk / fgen < 2 ^ 24 → v % 2 ^ 24 = fclk / fgen)) ∧
    (∀ (cmd : Cmd) (env : Env) (s0 : HState),
      env.enableOk = true → env.initOk = true → env.openOk = true →
      env.setMaskOk = true → env.epciOk = true → env.magic = MAGIC_VALUE →
      env.fclk = fclk → cmd.irq_fgen = fgen → fclk / fgen = 0 →
      rtask_main cmd env s0 =
        ⟨true, true,
         [DevAction.uirqOpen, DevAction.epciOpen, DevAction.regRead REG_MAGIC,
          DevAction.regRead REG_FCLK, DevAction.regWrite REG_CTL 0,
          DevAction.epciClose, DevAction.uirqClose], s0, 0⟩) := by
  refine ⟨?_, ?_, ?_⟩
  · unfold armCtlWrite
    by_cases h : fclk / fgen = 0 <;> simp [h]
  · intro v hv
    unfold armCtlWrite at hv
    by_cases h : fclk / fgen = 0
    · simp [h] at hv
    · simp only [h, if_neg, if_false, Option.some.injEq] at hv
      subst hv
      refine ⟨armCtl_testBit31 _, armCtl_low24 _, fun hlt => ?_⟩
      rw [armCtl_low24, Nat.mod_eq_of_lt hlt]
  · intro cmd env s0 h1 h2 h3 h4 h5 h6 h7 h8 h9
    unfold rtask_main
    rw [h1, h2, h3, h4, h5, h6, h7, h8]
    simp [h9]

/-- Witness for `arm_divider_behavior` at `FCLK = 1_000_000`,
`frequencyHz = 1000` (divider 1000). -/
theorem arm_divider_behavior_witness :
    0 < 1000 ∧
    (armCtlWrite 1000000 1000 = none ↔ 1000000 / 1000 = 0) ∧
    ((2 ^ 31 ||| 1000 : Nat).testBit 31 = true ∧
     (2 ^ 31 ||| 1000 : Nat) % 2 ^ 24 = 1000000 / 1000 % 2 ^ 24 ∧
     (1000000 / 1000 < 2 ^ 24 → (2 ^ 31 ||| 1000 : Nat) % 2 ^ 24 = 1000000 / 1000)) :=
  ⟨by decide,
   (arm_divider_behavior 1000000 1000 (by decide)).1,
   (arm_divider_behavior 1000000 1000 (by decide)).2.1 (2 ^ 31 ||| 1000) (by decide)⟩

/-- C6 counterexample: at `FCLK = 2^24`, `frequencyHz = 1` the quotient is
`2^24`, arming succeeds and writes `2^31 ||| 2^24`, whose low 24 bits are 0,
not the quotient: the claim that the written CTL carries "that quotient in
the low 24 bits" fails once the quotient does not fit in 24 bits. -/
theorem arm_low_bits_counterexample :
    armCtlWrite (2 ^ 24) 1 = some (2 ^ 31 ||| 2 ^ 24) ∧
    (2 ^ 24 : Nat) / 1 = 2 ^ 24 ∧
    (2 ^ 31 ||| 2 ^ 24 : Nat) % 2 ^ 24 = 0 ∧
    ¬(2 ^ 31 ||| 2 ^ 24 : Nat) % 2 ^ 24 = 2 ^ 24 / 1 := by
  refine ⟨by decide, by decide, by decide, by decide⟩

/-- C5 (corrected): when the devices open but the MAGIC register does not
read `0xBADCAFEE`, the task fails, and the cleanup path does perform one
register write after the failed check — the disarm write CTL = 0 — before
closing the register and interrupt sessions; no other register access
happens after the check. -/
theorem magic_mismatch_cleanup_write (cmd : Cmd) (env : Env) (s0 : HState)
    (h1 : env.enableOk = true) (h2 : env.initOk = true) (h3 : env.openOk = true)
    (h4 : env.setMaskOk = true) (h5 : env.epciOk = true)
    (h6 : env.magic ≠ MAGIC_VALUE) :
    rtask_main cmd env s0 =
      ⟨true, true,
       [DevAction.uirqOpen, DevAction.epciOpen, DevAction.regRead REG_MAGIC,
        DevAction.regWrite REG_CTL 0, DevAction.epciClose, DevAction.uirqClose],
       s0, 0⟩ := by
  unfold rtask_main
  rw [h1, h2, h3, h4, h5]
  simp [h6]

/-- Witness for `magic_mismatch_cleanup_write`: a device reporting magic
`0x12345678`. -/
theorem magic_mismatch_cleanup_write_witness :
    ((⟨true, true, true, true, true, 0x12345678, 1000000, []⟩ : Env).magic ≠ MAGIC_VALUE) ∧
    rtask_main ⟨1000, 0⟩ ⟨true, true, true, true, true, 0x12345678, 1000000, []⟩ initHState =
      ⟨true, true,
       [DevAction.uirqOpen, DevAction.epciOpen, DevAction.regRead REG_MAGIC,
        DevAction.regWrite REG_CTL 0, DevAction.epciClose, DevAction.uirqClose],
       initHState, 0⟩ :=
  ⟨by decide,
   magic_mismatch_cleanup_write ⟨1000, 0⟩ _ initHState rfl rfl rfl rfl rfl (by decide)⟩

/-- C5 counterexample: with a device reporting magic `0x12345678` the task
fails as claimed, but the action trace records a register write — the
disarm write CTL = 0 — after the failed MAGIC read, so "no register writes
occur afterward" is false. -/
theorem magic_mismatch_counterexample :
    (rtask_main ⟨1000, 0⟩ ⟨true, true, true, true, true, 0x12345678, 1000000, []⟩ initHState).err = true ∧
    (rtask_main ⟨1000, 0⟩ ⟨true, true, true, true, true, 0x12345678, 1000000, []⟩ initHState).actions =
      [DevAction.uirqOpen, DevAction.epciOpen, DevAction.regRead REG_MAGIC,
       DevAction.regWrite REG_CTL 0, DevAction.epciClose, DevAction.uirqClose] ∧
    DevAction.regWrite REG_CTL 0 ∈
      (rtask_main ⟨1000, 0⟩ ⟨true, true, true, true, true, 0x12345678, 1000000, []⟩ initHState).actions := by
  refine ⟨by decide, by decide, by decide⟩

/-- C8: on every exit path of the measurement task that the model observes
to termination — normal completion, cancellation, MAGIC or divider failure,
hard wait error — the acquired resources are released in reverse
acquisition order: whenever the register session was opened, the action
trace ends with the disarm write CTL = 0, then the register-session close,
then the interrupt-session close; whenever only the interrupt session was
opened, the trace ends with its close.  Paths acquiring nothing release
nothing. -/
theorem loopPhase_cleanup (c f : Nat) (evs : List Event) (ctl : Nat) (s0 : HState)
    (h : (loopPhase c f evs ctl s0).complete = true) :
    (DevAction.epciOpen ∈ (loopPhase c f evs ctl s0).actions →
      ∃ l, (loopPhase c f evs ctl s0).actions
        = l ++ [DevAction.regWrite REG_CTL 0, DevAction.epciClose, DevAction.uirqClose]) ∧
    (DevAction.uirqOpen ∈ (loopPhase c f evs ctl s0).actions ∧
        DevAction.epciOpen ∉ (loopPhase c f evs ctl s0).actions →
      ∃ l, (loopPhase c f evs ctl s0).actions = l ++ [DevAction.uirqClose]) := by
  simp only [loopPhase] at h ⊢
  by_cases hfo : (runLoop c f evs 0 { s0 with irq_missed := 0 }).exit = LoopExit.fuelOut
  · rw [if_pos hfo] at h
    exact absurd h (by simp)
  · rw [if_neg hfo] at h ⊢
    refine ⟨fun _ => ?_, fun hc => absurd ?_ hc.2⟩
    · exact ⟨armedActs ctl ++ (runLoop c f evs 0 { s0 with irq_missed := 0 }).acts,
        by simp⟩
    · simp [armedActs]

theorem cleanup_on_all_exits (cmd : Cmd) (env : Env) (s0 : HState)
    (h : (rtask_main cmd env s0).complete = true) :
    (DevAction.epciOpen ∈ (rtask_main cmd env s0).actions →
      ∃ l, (rtask_main cmd env s0).actions
        = l ++ [DevAction.regWrite REG_CTL 0, DevAction.epciClose, DevAction.uirqClose]) ∧
    (DevAction.uirqOpen ∈ (rtask_main cmd env s0).actions ∧
        DevAction.epciOpen ∉ (rtask_main cmd env s0).actions →
      ∃ l, (rtask_main cmd env s0).actions = l ++ [DevAction.uirqClose]) := by
  unfold rtask_main at h ⊢
  by_cases h1 : env.enableOk = false
  · simp [h1]
  · rw [if_neg h1] at h ⊢
    by_cases h2 : env.initOk = false
    · simp [h2]
    · rw [if_neg h2] at h ⊢
      by_cases h3 : env.openOk = false
      · simp [h3]
      · rw [if_neg h3] at h ⊢
        by_cases h4 : env.setMaskOk = false
        · rw [if_pos h4] at h ⊢
          exact ⟨fun hm => absurd hm (by simp), fun _ => ⟨[DevAction.uirqOpen], rfl⟩⟩
        · rw [if_neg h4] at h ⊢
          by_cases h5 : env.epciOk = false
          · rw [if_pos h5] at h ⊢
            exact ⟨fun hm => absurd hm (by simp), fun _ => ⟨[DevAction.uirqOpen], rfl⟩⟩
          · rw [if_neg h5] at h ⊢
            by_cases h6 : env.magic ≠ MAGIC_VALUE
            · rw [if_pos h6] at h ⊢
              exact ⟨fun _ => ⟨[DevAction.uirqOpen, DevAction.epciOpen,
                DevAction.regRead REG_MAGIC], rfl⟩,
                fun hc => absurd (by simp) hc.2⟩
            · rw [if_neg h6] at h ⊢
              by_cases h7 : env.fclk / cmd.irq_fgen = 0
              · rw [if_pos h7] at h ⊢
                exact ⟨fun _ => ⟨[DevAction.uirqOpen, DevAction.epciOpen,
                  DevAction.regRead REG_MAGIC, DevAction.regRead REG_FCLK], rfl⟩,
                  fun hc => absurd (by simp) hc.2⟩
              · rw [if_neg h7] at h ⊢
                exact loopPhase_cleanup cmd.irq_count env.fclk env.events
                  (2 ^ 31 ||| (env.fclk / cmd.irq_fgen)) s0 h

/-- Witness for `cleanup_on_all_exits`: a completed run that is cancelled
by the signal flag after its first sample. -/
theorem cleanup_on_all_exits_witness :
    (rtask_main ⟨1000, 0⟩ ⟨true, true, true, true, true, MAGIC_VALUE, 1000000,
        [⟨false, 1, 0, 500, true⟩]⟩ initHState).complete = true ∧
    ((DevAction.epciOpen ∈ (rtask_main ⟨1000, 0⟩ ⟨true, true, true, true, true,
          MAGIC_VALUE, 1000000, [⟨false, 1, 0, 500, true⟩]⟩ initHState).actions →
       ∃ l, (rtask_main ⟨1000, 0⟩ ⟨true, true, true, true, true, MAGIC_VALUE, 1000000,
          [⟨false, 1, 0, 500, true⟩]⟩ initHState).actions
         = l ++ [DevAction.regWrite REG_CTL 0, DevAction.epciClose, DevAction.uirqClose]) ∧
     (DevAction.uirqOpen ∈ (rtask_main ⟨1000, 0⟩ ⟨true, true, true, true, true,
          MAGIC_VALUE, 1000000, [⟨false, 1, 0, 500, true⟩]⟩ initHState).actions ∧
         DevAction.epciOpen ∉ (rtask_main ⟨1000, 0⟩ ⟨true, true, true, true, true,
          MAGIC_VALUE, 1000000, [⟨false, 1, 0, 500, true⟩]⟩ initHState).actions →
       ∃ l, (rtask_main ⟨1000, 0⟩ ⟨true, true, true, true, true, MAGIC_VALUE, 1000000,
          [⟨false, 1, 0, 500, true⟩]⟩ initHState).actions = l ++ [DevAction.uirqClose])) :=
  ⟨by decide,
   cleanup_on_all_exits ⟨1000, 0⟩ ⟨true, true, true, true, true, MAGIC_VALUE, 1000000,
     [⟨false, 1, 0, 500, true⟩]⟩ initHState (by decide)⟩

/-- Helper: the report body lists the nonzero buckets in strictly
ascending microsecond-offset order. -/
theorem bucketRows_pairwise (hist : Nat → Nat) :
    List.Pairwise (fun p q => p.1 < q.1) (bucketRows hist) := by
  unfold bucketRows
  apply List.Pairwise.map
  · intro a b hab
    simpa [LAT_RES_US] using hab
  · exact List.Pairwise.filter _ (List.pairwise_lt_range LAT_MAX_COUNT)

/-- Helper: a bucket row appears in the report body exactly when its bucket
is nonzero. -/
theorem bucketRows_mem (hist : Nat → Nat) (i : Nat) (hi : i < LAT_MAX_COUNT) :
    hist i ≠ 0 ↔ (i * LAT_RES_US, hist i) ∈ bucketRows hist := by
  unfold bucketRows
  constructor
  · intro h
    exact List.mem_map.mpr ⟨i, List.mem_filter.mpr
      ⟨List.mem_range.mpr hi, by simpa using h⟩, rfl⟩
  · intro h
    rcases List.mem_map.mp h with ⟨j, hj, he⟩
    have hji : j = i := by
      have := congrArg Prod.fst he
      simpa [LAT_RES_US] using this
    subst hji
    have := (List.mem_filter.mp hj).2
    simpa using this

/-- C10: whatever the measurement task reported, the process prints the two
summary lines `# irq_count : <n>` and `# irq_missed: <n>` (with the task's
final counters) followed by one line `<microsecondOffset> <count>` per
nonzero histogram bucket in strictly ascending offset order — the print is
unconditional, so histogram data accumulated before a failure is still
reported — and the process exit code is exactly the task's error result. -/
theorem report_format (cmd : Cmd) (env : Env) (u : Nat) :
    (main_report cmd env u).exitErr = (rtask_main cmd env ⟨fun _ => 0, u, 0⟩).err ∧
    (main_report cmd env u).lines
      = ("# irq_count : " ++ toString (rtask_main cmd env ⟨fun _ => 0, u, 0⟩).irq) ::
        ("# irq_missed: " ++ toString (rtask_main cmd env ⟨fun _ => 0, u, 0⟩).st.irq_missed) ::
        (bucketRows (rtask_main cmd env ⟨fun _ => 0, u, 0⟩).st.lat_hist).map
          (fun p => toString p.1 ++ " " ++ toString p.2) ∧
    List.Pairwise (fun p q => p.1 < q.1)
      (bucketRows (rtask_main cmd env ⟨fun _ => 0, u, 0⟩).st.lat_hist) ∧
    ∀ i, i < LAT_MAX_COUNT →
      ((rtask_main cmd env ⟨fun _ => 0, u, 0⟩).st.lat_hist i ≠ 0 ↔
        (i * LAT_RES_US, (rtask_main cmd env ⟨fun _ => 0, u, 0⟩).st.lat_hist i)
          ∈ bucketRows (rtask_main cmd env ⟨fun _ => 0, u, 0⟩).st.lat_hist) := by
  refine ⟨rfl, rfl, bucketRows_pairwise _, fun i hi => bucketRows_mem _ i hi⟩
